import Mathlib

/-!
Verification of the slot-booking core of the turf_booking repository.

The JavaScript sources are shallowly embedded as executable Lean
definitions:

* clock times ("HH:mm" strings) are minutes-of-day (`Nat`, `0 ≤ t < 1440`),
  and `formatHHmm` renders a minute value back to its zero-padded label;
* timestamps (JS `Date` values) are minutes since the Unix epoch (`Nat`);
  the deployment timezone is modelled as offset-free, so local midnight of
  a timestamp `t` is `t - t % 1440`;
* JS numbers are embedded as exact rationals (`ℚ`); `Math.ceil` is `Int.ceil`
  and `Math.max(0, _)` is `max 0 _`;
* MongoDB collections are Lean lists of rows, a session/transaction is
  explicit state passing, and a thrown JS error is the `Except.error`
  branch carrying an `Err` value;
* the partial unique index declared on the BookingSlot schema
  (courtId, bookingDate, slotTime unique over BOOKED rows) is
  modelled inside the write operations: a write that would produce a second
  BOOKED row for the same triple fails with `Err.duplicateKey`, exactly as
  the database rejects it.
-/

namespace Turf

/-! ## Clock-time formatting (the moment format HH:mm) -/

/-- One decimal digit as a character, as produced by number formatting. -/
def digitChar (n : Nat) : Char := Char.ofNat (48 + n)

/-- Two-digit zero-padded rendering of a value below 100. -/
def pad2 (n : Nat) : List Char := [digitChar (n / 10), digitChar (n % 10)]

/-- Rendering of a minutes-of-day value as its "HH:mm" label, the embedding
of the moment HH:mm formatting of a same-day time. -/
def formatHHmm (t : Nat) : String :=
  String.mk (pad2 (t / 60) ++ [':'] ++ pad2 (t % 60))

/-! ## Errors thrown by the booking core -/

/-- Errors of the embedded services; each constructor corresponds to one
`throw new Error(...)` site (or a database uniqueness rejection, or the
TypeError raised by assigning to a `const` binding). -/
inductive Err where
  | courtNotFound
  | courtInactive
  | invalidRange
  | invalidTimeRange
  | slotConflict (conflicts : List String)
  | advanceExceeds
  | constAssignment
  | duplicateKey
  | ruleNotFound
deriving DecidableEq, Repr

/-- Message text of each error, as the JS `error.message` strings. -/
def Err.message : Err → String
  | .courtNotFound => "Court not found"
  | .courtInactive => "Court is not active"
  | .invalidRange => "End time must be after start time"
  | .invalidTimeRange => "Invalid time range"
  | .slotConflict conflicts =>
      if conflicts.length > 0 then
        "This slot is already booked. Please select another time. (Conflicts: "
          ++ String.intercalate ", " conflicts ++ ")"
      else
        "This slot is already booked. Please select another time."
  | .advanceExceeds => "Advance cannot be more than final amount"
  | .constAssignment => "Assignment to constant variable."
  | .duplicateKey => "E11000 duplicate key error"
  | .ruleNotFound => "Rule not found or inactive"

/-! ## Slot generator (`slotGenerator.service.js`) -/

/-- Loop of `generateSlots`: while `current < end`, push the label of
`current` and advance by 15 minutes. -/
def generateSlotsLoop (endT : Nat) (cur : Nat) : List String :=
  if cur < endT then formatHHmm cur :: generateSlotsLoop endT (cur + 15)
  else []
termination_by endT - cur
decreasing_by omega

/-- Embedding of `generateSlots(startTime, endTime)`: arguments are the
parsed minute values of the "HH:mm" inputs; throws `invalidRange` when the
end is not strictly after the start. -/
def generateSlots (startT endT : Nat) : Except Err (List String) :=
  if ¬ (startT < endT) then .error .invalidRange
  else .ok (generateSlotsLoop endT startT)

/-! ## Calendar arithmetic (moment / JS `Date` at minute granularity) -/

/-- Local midnight of a timestamp, the embedding of
`moment(date).startOf(day).toDate()` from `dateUtils.js`. -/
def normalizeToMidnight (t : Nat) : Nat := t - t % 1440

/-- Weekday of a timestamp, the embedding of `.getDay()` / `moment(d).day()`
(0 = Sunday … 6 = Saturday); day 0 of the epoch is a Thursday. -/
def jsGetDay (t : Nat) : Nat := (t / 1440 + 4) % 7

/-- Civil (year, month, day) of a day count since 1970-01-01, the standard
days-to-civil conversion JS `Date` accessors perform. -/
def civilFromDays (z : Nat) : Nat × Nat × Nat :=
  let zz := z + 719468
  let era := zz / 146097
  let doe := zz % 146097
  let yoe := (doe - doe / 1460 + doe / 36524 - doe / 146096) / 365
  let y := yoe + era * 400
  let doy := doe - (365 * yoe + yoe / 4 - yoe / 100)
  let mp := (5 * doy + 2) / 153
  let d := doy - (153 * mp + 2) / 5 + 1
  let m := if mp < 10 then mp + 3 else mp - 9
  (if m ≤ 2 then y + 1 else y, m, d)

/-- Day count since 1970-01-01 of a civil date (valid for years ≥ 1970),
inverse of `civilFromDays`. -/
def daysFromCivil (y m d : Nat) : Nat :=
  let y2 := if m ≤ 2 then y - 1 else y
  let era := y2 / 400
  let yoe := y2 - era * 400
  let mp := if 2 < m then m - 3 else m + 9
  let doy := (153 * mp + 2) / 5 + d - 1
  let doe := yoe * 365 + yoe / 4 - yoe / 100 + doy
  era * 146097 + doe - 719468

/-- Day-of-month of a timestamp, the embedding of `.getDate()`. -/
def jsGetDate (t : Nat) : Nat := (civilFromDays (t / 1440)).2.2

/-- Embedding of `d.setMonth(d.getMonth() + 3)`: keeps the day-of-month and
time-of-day, letting a day beyond the length of the target month overflow into
the following month, exactly as JS `Date` normalizes it. -/
def jsAddThreeMonths (t : Nat) : Nat :=
  match civilFromDays (t / 1440) with
  | (y, m, d) =>
    let mz := m - 1 + 3
    ((daysFromCivil (y + mz / 12) (mz % 12 + 1) 1 + (d - 1)) * 1440) + t % 1440

/-- Rendering of a timestamp as its "YYYY-MM-DD" date string, the embedding
of the date part of `date.toISOString()` on a midnight date. -/
def isoDate (t : Nat) : String :=
  match civilFromDays (t / 1440) with
  | (y, m, d) => toString y ++ "-" ++ String.mk (pad2 m) ++ "-" ++ String.mk (pad2 d)

/-! ## Data model (Mongoose schemas, embedded as row structures) -/

/-- Status enum of the Court schema. -/
inductive CourtStatus where
  | active
  | inactive
deriving DecidableEq, Repr

/-- Court row: id, pricing fields and status (the fields the booking core
reads; name and sport type play no role in the verified operations). -/
structure Court where
  id : Nat
  name : String
  sportType : String
  weekdayPrice : ℚ
  weekendPrice : ℚ
  status : CourtStatus
deriving DecidableEq, Repr

/-- Status enum of the Booking schema. -/
inductive BookingStatus where
  | booked
  | cancelled
  | completed
deriving DecidableEq, Repr

/-- Source enum of the Booking schema. -/
inductive BookingSource where
  | manual
  | recurring
deriving DecidableEq, Repr

/-- Discount type enum shared by Booking and RecurringBooking. -/
inductive DiscountType where
  | none
  | percent
  | flat
deriving DecidableEq, Repr

/-- Payment mode enum of the Payment schema. -/
inductive PayMode where
  | cash
  | upi
  | card
  | online
deriving DecidableEq, Repr

/-- Payment status enum of the Payment schema. -/
inductive PayStatus where
  | pending
  | partialPay
  | paid
deriving DecidableEq, Repr

/-- Booking row, as the Booking schema stores it. -/
structure Booking where
  id : Nat
  customerName : String
  customerPhone : String
  sportType : String
  courtId : Nat
  bookingDate : Nat
  startTime : Nat
  endTime : Nat
  totalSlots : Nat
  baseAmount : ℚ
  discountType : DiscountType
  discountValue : ℚ
  finalAmount : ℤ
  createdBy : Nat
  status : BookingStatus
  source : BookingSource
  recurringId : Option Nat
deriving DecidableEq, Repr

/-- Status enum of the BookingSlot schema. -/
inductive SlotStatus where
  | booked
  | completed
  | cancelled
deriving DecidableEq, Repr

/-- BookingSlot row: one 15-minute reservation unit. -/
structure SlotRow where
  bookingId : Nat
  courtId : Nat
  bookingDate : Nat
  slotTime : String
  status : SlotStatus
deriving DecidableEq, Repr

/-- Key of the partial unique index declared on the BookingSlot schema:
`{courtId: 1, bookingDate: 1, slotTime: 1}` unique over BOOKED rows. -/
def SlotRow.key (r : SlotRow) : Nat × Nat × String :=
  (r.courtId, r.bookingDate, r.slotTime)

/-- Payment row, one-to-one with Booking. -/
structure Payment where
  bookingId : Nat
  totalAmount : ℤ
  advancePaid : ℚ
  balanceAmount : ℚ
  paymentMode : PayMode
  paymentNotes : String
  status : PayStatus
deriving DecidableEq, Repr

/-- Recurrence type enum of the RecurringBooking schema. -/
inductive RecurrenceType where
  | weekly
  | monthly
deriving DecidableEq, Repr

/-- Weekday enum of the RecurringBooking `daysOfWeek` field. -/
inductive Weekday where
  | sun
  | mon
  | tue
  | wed
  | thu
  | fri
  | sat
deriving DecidableEq, Repr

/-- Embedding of the `DAYS_MAP` table of `recurringGenerator.service.js`. -/
def DAYS_MAP : Weekday → Nat
  | .sun => 0
  | .mon => 1
  | .tue => 2
  | .wed => 3
  | .thu => 4
  | .fri => 5
  | .sat => 6

/-- Status enum of the RecurringBooking schema. -/
inductive RuleStatus where
  | active
  | paused
deriving DecidableEq, Repr

/-- RecurringBooking row (a recurrence rule). -/
structure RecurringRule where
  id : Nat
  customerName : String
  customerPhone : String
  sportType : String
  courtId : Nat
  recurrenceType : RecurrenceType
  daysOfWeek : List Weekday
  fixedDate : Option Nat
  startTime : Nat
  endTime : Nat
  startDate : Nat
  endDate : Option Nat
  monthlyAmount : ℚ
  paymentStatus : PayStatus
  advancePaid : ℚ
  discountType : DiscountType
  discountValue : ℚ
  status : RuleStatus
  createdBy : Nat
deriving DecidableEq, Repr

/-- Database state: one list per collection, plus a counter supplying fresh
document ids. -/
structure DBState where
  courts : List Court
  bookings : List Booking
  slots : List SlotRow
  payments : List Payment
  rules : List RecurringRule
  nextId : Nat
deriving DecidableEq, Repr

/-! ## Pricing calculator (`pricing.service.js`) -/

/-- Embedding of `calculatePrice(court, totalSlots, bookingDate)`: weekend
rate on Saturday/Sunday, weekday rate otherwise; per-slot price is the
hourly rate over 4; base amount is per-slot price times slot count. -/
def calculatePrice (court : Court) (totalSlots : Nat) (bookingDate : Nat) : ℚ :=
  let dayOfWeek := jsGetDay bookingDate
  let hourlyRate :=
    if dayOfWeek == 0 || dayOfWeek == 6 then court.weekendPrice else court.weekdayPrice
  let slotPrice := hourlyRate / 4
  slotPrice * totalSlots

/-! ## Slot availability checker (`slotValidation.service.js`) -/

/-- Result shape of `checkSlotAvailability`. -/
structure AvailResult where
  available : Bool
  conflicts : List String
deriving DecidableEq, Repr

/-- Embedding of `[...new Set(xs)]`: removes duplicates keeping the first
occurrence of each element, in insertion order. -/
def setDedup : List String → List String
  | [] => []
  | a :: l => a :: setDedup (l.filter (fun b => b != a))
termination_by l => l.length
decreasing_by
  simp only [List.length_cons]
  exact Nat.lt_succ_of_le (List.length_filter_le _ _)

/-- Lexicographic strict comparison of character lists by code unit, the
order JS `Array.prototype.sort()` uses on strings. -/
def charListLt : List Char → List Char → Bool
  | [], [] => false
  | [], _ :: _ => true
  | _ :: _, [] => false
  | a :: as, b :: bs =>
    if a.toNat < b.toNat then true
    else if b.toNat < a.toNat then false
    else charListLt as bs

/-- Non-strict string comparison derived from `charListLt`. -/
def jsStrLe (a b : String) : Bool := !(charListLt b.data a.data)

/-- Embedding of JS `Array.prototype.sort()` on strings: sorts by code-unit
lexicographic order. -/
def jsSortStrings (l : List String) : List String :=
  l.mergeSort jsStrLe

/-- Predicate of the conflict query of `checkSlotAvailability`: a BOOKED
row for this court, this normalized date and one of the requested slot
labels, excluding rows of `excludeBookingId` when given. -/
def slotConflictQuery (courtId : Nat) (normalizedDate : Nat) (slots : List String)
    (excludeBookingId : Option Nat) (r : SlotRow) : Bool :=
  r.courtId == courtId && r.bookingDate == normalizedDate &&
    slots.contains r.slotTime && r.status == SlotStatus.booked &&
    (match excludeBookingId with
     | some bid => r.bookingId != bid
     | none => true)

/-- Embedding of `checkSlotAvailability(courtId, bookingDate, startTime,
endTime, session, excludeBookingId)`: expands the range with the slot
generator (whose `invalidRange` error propagates), queries BOOKED rows for
the generated labels, and reports either availability or the sorted
duplicate-free conflicting labels. -/
def checkSlotAvailability (s : DBState) (courtId : Nat) (bookingDate : Nat)
    (startTime endTime : Nat) (excludeBookingId : Option Nat) :
    Except Err AvailResult :=
  match generateSlots startTime endTime with
  | .error e => .error e
  | .ok slots =>
    let normalizedDate := normalizeToMidnight bookingDate
    let conflicts :=
      s.slots.filter (slotConflictQuery courtId normalizedDate slots excludeBookingId)
    if conflicts.length > 0 then
      .ok ⟨false, jsSortStrings (setDedup (conflicts.map SlotRow.slotTime))⟩
    else
      .ok ⟨true, []⟩

/-! ## Index-checked BookingSlot writes

The BookingSlot schema declares a unique index on
`(courtId, bookingDate, slotTime)` restricted by
a partial filter expression restricting it to BOOKED rows. The database rejects any
write that would leave two BOOKED rows with the same key, so the embedded
write operations perform that check and fail with `duplicateKey`. -/

/-- Core concurrency invariant: for each (court, date, slotTime) triple, at
most one row has status BOOKED; rows in other statuses are unconstrained. -/
def AtMostOneBooked (rows : List SlotRow) : Prop :=
  rows.Pairwise (fun a b =>
    a.status = SlotStatus.booked → b.status = SlotStatus.booked → a.key ≠ b.key)

/-- Check whether inserting `r` next to `existing` violates the partial
unique index. -/
def violatesIndex (existing : List SlotRow) (r : SlotRow) : Bool :=
  r.status == SlotStatus.booked &&
    existing.any (fun e => e.status == SlotStatus.booked && e.key == r.key)

/-- Embedding of `BookingSlot.insertMany`: documents are inserted in order
and the whole call fails with a duplicate-key error as soon as one insert
would violate the partial unique index. -/
def insertManySlots (existing : List SlotRow) : List SlotRow → Except Err (List SlotRow)
  | [] => .ok existing
  | r :: rs =>
    if violatesIndex existing r then .error .duplicateKey
    else insertManySlots (existing ++ [r]) rs

/-- Check whether a row list contains two BOOKED rows with the same index
key (the condition under which the database rejects a bulk update). -/
def hasBookedDup : List SlotRow → Bool
  | [] => false
  | r :: rs =>
    (r.status == SlotStatus.booked &&
      rs.any (fun e => e.status == SlotStatus.booked && e.key == r.key)) ||
    hasBookedDup rs

/-- Embedding of `BookingSlot.updateMany({bookingId}, {status})`. -/
def updateSlotsStatusByBooking (rows : List SlotRow) (bid : Nat) (st : SlotStatus) :
    List SlotRow :=
  rows.map (fun r => if r.bookingId == bid then { r with status := st } else r)

/-- Discount application of `createSingleBooking` step 4 (the `if/else if`
chain): PERCENT subtracts base × value / 100, FLAT subtracts the value,
anything else leaves the base unchanged. -/
def discountedAmount (base : ℚ) (dt : DiscountType) (v : ℚ) : ℚ :=
  match dt with
  | .percent => base - base * v / 100
  | .flat => base - v
  | .none => base

/-! ## Booking core (`bookingCore.service.js`) -/

/-- Argument record of `createSingleBooking`. The JS function destructures
these keys from `bookingData` with defaults `source = MANUAL`,
`recurringId = null`, `skipAvailabilityCheck = false`,
`paymentStatus = null`; a caller that omits a key (or passes a key of a
different name) gets the default. -/
structure BookingInput where
  customerName : String
  customerPhone : String
  sportType : String
  courtId : Nat
  bookingDate : Nat
  startTime : Nat
  endTime : Nat
  discountType : DiscountType
  discountValue : ℚ
  advancePaid : ℚ
  paymentMode : Option PayMode
  paymentNotes : String
  createdBy : Nat
  source : BookingSource
  recurringId : Option Nat
  skipAvailabilityCheck : Bool
  paymentStatus : Option PayStatus
deriving DecidableEq, Repr

/-- Embedding of `createSingleBooking(bookingData, session)`. Returns the
outcome together with the state of the session after the call: on success
the state holds the new Booking, BookingSlot and Payment rows; on failure
the state keeps whatever writes the JS function performed before throwing
(only the zombie-slot `deleteMany` can precede a throw). The caller owns
the transaction boundary, so it is the caller that discards this state when
it aborts. Note the PAID payment-status branch: the JS code assigns
to the `const`-destructured `advancePaid`, which raises a TypeError, here
`constAssignment`. -/
def createSingleBooking (data : BookingInput) (s : DBState) :
    Except Err Booking × DBState :=
  let normalizedDate := normalizeToMidnight data.bookingDate
  match s.courts.find? (fun c => c.id == data.courtId) with
  | none => (.error .courtNotFound, s)
  | some court =>
    if court.status != CourtStatus.active then (.error .courtInactive, s)
    else
      match generateSlots data.startTime data.endTime with
      | .error e => (.error e, s)
      | .ok slots =>
        if slots.length == 0 then (.error .invalidTimeRange, s)
        else
          let availStep : Except Err DBState :=
            if data.skipAvailabilityCheck then .ok s
            else
              match checkSlotAvailability s data.courtId normalizedDate
                  data.startTime data.endTime none with
              | .error e => .error e
              | .ok avail =>
                if avail.available = false then .error (.slotConflict avail.conflicts)
                else
                  .ok { s with slots := s.slots.filter (fun r =>
                    !(r.courtId == data.courtId && r.bookingDate == normalizedDate &&
                      slots.contains r.slotTime && r.status != SlotStatus.booked)) }
          match availStep with
          | .error e => (.error e, s)
          | .ok s1 =>
            let baseAmount := calculatePrice court slots.length data.bookingDate
            let discounted := discountedAmount baseAmount data.discountType data.discountValue
            let finalAmount : ℤ := max 0 ⌈discounted⌉
            if data.paymentStatus == some PayStatus.paid then
              (.error .constAssignment, s1)
            else if (finalAmount : ℚ) < data.advancePaid then
              (.error .advanceExceeds, s1)
            else
              let booking : Booking :=
                { id := s1.nextId
                  customerName := data.customerName
                  customerPhone := data.customerPhone
                  sportType := data.sportType
                  courtId := data.courtId
                  bookingDate := normalizedDate
                  startTime := data.startTime
                  endTime := data.endTime
                  totalSlots := slots.length
                  baseAmount := baseAmount
                  discountType := data.discountType
                  discountValue := data.discountValue
                  finalAmount := finalAmount
                  createdBy := data.createdBy
                  status := BookingStatus.booked
                  source := data.source
                  recurringId := data.recurringId }
              let s2 := { s1 with bookings := s1.bookings ++ [booking],
                                  nextId := s1.nextId + 1 }
              let newRows := slots.map (fun time =>
                { bookingId := booking.id
                  courtId := data.courtId
                  bookingDate := normalizedDate
                  slotTime := time
                  status := SlotStatus.booked : SlotRow })
              match insertManySlots s2.slots newRows with
              | .error e => (.error e, s2)
              | .ok allRows =>
                let payment : Payment :=
                  { bookingId := booking.id
                    totalAmount := finalAmount
                    advancePaid := data.advancePaid
                    balanceAmount := (finalAmount : ℚ) - data.advancePaid
                    paymentMode := data.paymentMode.getD PayMode.cash
                    paymentNotes := data.paymentNotes
                    status :=
                      match data.paymentStatus with
                      | some ps => ps
                      | none =>
                        if data.advancePaid ≤ 0 then PayStatus.pending
                        else if (finalAmount : ℚ) ≤ data.advancePaid then PayStatus.paid
                        else PayStatus.partialPay }
                let s3 := { s2 with slots := allRows,
                                    payments := s2.payments ++ [payment] }
                (.ok booking, s3)

/-! ## Recurrence expander and processor (`recurringGenerator.service.js`) -/

/-- Per-day inclusion test of the `generateDates` loop: WEEKLY includes a
day whose weekday index is in the mapped day set of the rule; MONTHLY includes a
day whose day-of-month equals the fixed day of the rule. -/
def rulePred (rule : RecurringRule) (t : Nat) : Bool :=
  match rule.recurrenceType with
  | .weekly => (rule.daysOfWeek.map DAYS_MAP).contains (jsGetDay t)
  | .monthly =>
    match rule.fixedDate with
    | some f => jsGetDate t == f
    | none => false

/-- Walk of `generateDates`: while `currentDate <= endDate`, push the
normalized current date when the rule matches, then advance one day. -/
def genDatesLoop (rule : RecurringRule) (endD : Nat) (cur : Nat) : List Nat :=
  if cur ≤ endD then
    (if rulePred rule cur then [normalizeToMidnight cur] else []) ++
      genDatesLoop rule endD (cur + 1440)
  else []
termination_by endD + 1 - cur
decreasing_by omega

/-- Embedding of `generateDates(rule)`: normalizes the rule window, applies
the three-month default when no end date is given, and walks every day of
the window. -/
def generateDates (rule : RecurringRule) : List Nat :=
  let start0 := normalizeToMidnight rule.startDate
  let end0 :=
    match rule.endDate with
    | some e => normalizeToMidnight e
    | none => jsAddThreeMonths start0
  genDatesLoop rule (normalizeToMidnight end0) (normalizeToMidnight start0)

/-- Aggregate report of `processRecurringBooking`; each conflict entry is
the (ISO date, error message) pair the JS catch block records. -/
structure RecResult where
  success : Nat
  failed : Nat
  conflicts : List (String × String)
deriving DecidableEq, Repr

/-- Booking-core input the recurring processor builds for one date. The JS
call site passes the extra keys `bookingSource: RECURRING` and
`recurringRuleId: rule._id`, but `createSingleBooking` destructures the
keys `source` and `recurringId`, so the two passed keys are dropped and the
destructuring defaults (MANUAL, null) apply — reproduced here. -/
def recurringInput (rule : RecurringRule) (date : Nat) : BookingInput :=
  { customerName := rule.customerName
    customerPhone := rule.customerPhone
    sportType := rule.sportType
    courtId := rule.courtId
    bookingDate := date
    startTime := rule.startTime
    endTime := rule.endTime
    advancePaid := rule.advancePaid
    paymentMode := some PayMode.cash
    paymentNotes := "Generated via Recurring Rule"
    discountType := rule.discountType
    discountValue := rule.discountValue
    createdBy := rule.createdBy
    source := BookingSource.manual
    recurringId := none
    skipAvailabilityCheck := false
    paymentStatus := none }

/-- Per-date loop of `processRecurringBooking`: each date is attempted
independently; a failure increments `failed`, records `(date, reason)` and
continues with the state the failed call left behind (the catch block does
not abort the session). -/
def processDatesLoop (rule : RecurringRule) (dates : List Nat) (acc : RecResult)
    (s : DBState) : RecResult × DBState :=
  match dates with
  | [] => (acc, s)
  | date :: rest =>
    match createSingleBooking (recurringInput rule date) s with
    | (.ok _, s') =>
      processDatesLoop rule rest { acc with success := acc.success + 1 } s'
    | (.error e, s') =>
      processDatesLoop rule rest
        { acc with failed := acc.failed + 1,
                   conflicts := acc.conflicts ++ [(isoDate date, e.message)] } s'

/-- Embedding of `processRecurringBooking(ruleId, session)`: loads the rule
(failing when missing or not ACTIVE), expands its dates and runs the
per-date loop. -/
def processRecurringBooking (ruleId : Nat) (s : DBState) :
    Except Err RecResult × DBState :=
  match s.rules.find? (fun r => r.id == ruleId) with
  | none => (.error .ruleNotFound, s)
  | some rule =>
    if rule.status != RuleStatus.active then (.error .ruleNotFound, s)
    else
      let out := processDatesLoop rule (generateDates rule) ⟨0, 0, []⟩ s
      (.ok out.1, out.2)

/-! ## HTTP-layer operations that write BookingSlot rows
(`booking.controller.js`, `cron.service.js`). Each runs in its own
transaction: on any thrown error the transaction aborts and the state is
unchanged. -/

/-- Embedding of the `createBooking` controller: wraps `createSingleBooking`
in a transaction that commits on success and aborts on error. -/
def opCreateBooking (data : BookingInput) (s : DBState) : DBState :=
  match createSingleBooking data s with
  | (.ok _, s') => s'
  | (.error _, _) => s

/-- Embedding of `Booking.updateMany`-style status writes on the bookings
collection. -/
def setBookingStatus (bs : List Booking) (bid : Nat) (st : BookingStatus) :
    List Booking :=
  bs.map (fun b => if b.id == bid then { b with status := st } else b)

/-- Embedding of the `updateBookingStatus` controller: CANCELLED/COMPLETED
transition the slot rows of the booking in place; re-booking to BOOKED re-checks
availability (excluding this booking) and then flips the rows back to
BOOKED — a write the partial unique index still guards. Any error aborts
the transaction. -/
def opUpdateBookingStatus (bookingId : Nat) (newStatus : BookingStatus)
    (s : DBState) : DBState :=
  match s.bookings.find? (fun b => b.id == bookingId) with
  | none => s
  | some booking =>
    match newStatus with
    | .cancelled =>
      { s with slots := updateSlotsStatusByBooking s.slots booking.id SlotStatus.cancelled,
               bookings := setBookingStatus s.bookings booking.id BookingStatus.cancelled }
    | .completed =>
      { s with slots := updateSlotsStatusByBooking s.slots booking.id SlotStatus.completed,
               bookings := setBookingStatus s.bookings booking.id BookingStatus.completed }
    | .booked =>
      if booking.status != BookingStatus.booked then
        match checkSlotAvailability s booking.courtId
            (normalizeToMidnight booking.bookingDate) booking.startTime
            booking.endTime (some booking.id) with
        | .error _ => s
        | .ok avail =>
          if avail.available = false then s
          else
            let rows := updateSlotsStatusByBooking s.slots booking.id SlotStatus.booked
            if hasBookedDup rows then s
            else { s with slots := rows,
                          bookings := setBookingStatus s.bookings booking.id BookingStatus.booked }
      else
        { s with bookings := setBookingStatus s.bookings booking.id BookingStatus.booked }

/-- Embedding of the `deleteBooking` controller: deletes the slot rows and
payment rows of the booking and the booking itself in one transaction. -/
def opDeleteBooking (bookingId : Nat) (s : DBState) : DBState :=
  match s.bookings.find? (fun b => b.id == bookingId) with
  | none => s
  | some booking =>
    { s with slots := s.slots.filter (fun r => r.bookingId != booking.id),
             payments := s.payments.filter (fun p => p.bookingId != booking.id),
             bookings := s.bookings.filter (fun b => b.id != booking.id) }

/-- Expiry test of the cron sweep: a BOOKED booking whose date is a past
day, or whose date is today with end time at or before the current time. -/
def isExpired (now : Nat) (b : Booking) : Bool :=
  b.status == BookingStatus.booked &&
    (decide (b.bookingDate < normalizeToMidnight now) ||
      (decide (normalizeToMidnight now ≤ b.bookingDate) &&
        decide (b.bookingDate ≤ normalizeToMidnight now + 1439) &&
        decide (b.endTime ≤ now % 1440)))

/-- Embedding of the cron sweep of `cron.service.js`: finds expired BOOKED
bookings and transitions them and their slot rows to COMPLETED in one
transaction; writes nothing when nothing is expired. -/
def opCronSweep (now : Nat) (s : DBState) : DBState :=
  let expired := s.bookings.filter (isExpired now)
  if expired.length > 0 then
    let ids := expired.map Booking.id
    { s with
      bookings := s.bookings.map (fun b =>
        if ids.contains b.id then { b with status := BookingStatus.completed } else b),
      slots := s.slots.map (fun r =>
        if ids.contains r.bookingId then { r with status := SlotStatus.completed } else r) }
  else s



/-- Upper bound of the `generateDates` walk: the normalized end date, or
the normalized three-months default when the rule has no end date. -/
def ruleEndBound (rule : RecurringRule) : Nat :=
  normalizeToMidnight (match rule.endDate with
    | some e => normalizeToMidnight e
    | none => jsAddThreeMonths (normalizeToMidnight rule.startDate))

/-! ## Spec-side definitions

Definitions transcribed from the specification text (not from the code),
used to compare the embedded code against the spec wording. -/

/-- Spec text §4.2: "if Saturday or Sunday, uses weekend rate, else
weekday rate". -/
def specHourlyRate (court : Court) (date : Nat) : ℚ :=
  if jsGetDay date = 6 ∨ jsGetDay date = 0 then court.weekendPrice else court.weekdayPrice

/-- Spec text §4.2: "Per-slot price = hourlyRate / 4 … Base amount =
per-slot price × slot count". -/
def specBaseAmount (court : Court) (slotCount : Nat) (date : Nat) : ℚ :=
  specHourlyRate court date / 4 * slotCount

/-- Spec text §4.4 step 5: "PERCENT: base × (1 − value/100); FLAT:
base − value", NONE unchanged. -/
def specApplyDiscount (base : ℚ) : DiscountType → ℚ → ℚ
  | .percent, v => base * (1 - v / 100)
  | .flat, v => base - v
  | .none, _ => base

/-- Spec text §4.4 step 5: "clamp to ≥0 and round up to an integer". -/
def specFinalAmount (base : ℚ) (dt : DiscountType) (v : ℚ) : ℤ :=
  max 0 ⌈specApplyDiscount base dt v⌉

/-- Spec text §4.4 step 7: payment status "derived from advance vs final
amount (PENDING if advance ≤ 0, PAID if advance ≥ final, else PARTIAL)". -/
def specDerivedPayStatus (advance : ℚ) (final : ℤ) : PayStatus :=
  if advance ≤ 0 then PayStatus.pending
  else if (final : ℚ) ≤ advance then PayStatus.paid
  else PayStatus.partialPay

/-- Spec-side recount of the per-date outcomes of the recurring processor:
the (ISO date, error message) entries of exactly the dates whose
`createSingleBooking` call fails, threading the session state exactly as
the per-date loop does. -/
def specRunFailures (rule : RecurringRule) : List Nat → DBState → List (String × String)
  | [], _ => []
  | d :: ds, st =>
    match createSingleBooking (recurringInput rule d) st with
    | (.ok _, st1) => specRunFailures rule ds st1
    | (.error e, st1) => (isoDate d, e.message) :: specRunFailures rule ds st1

/-! ## Concrete fixtures used by witnesses and counterexamples -/

/-- Court fixture: ACTIVE, weekday rate 400, weekend rate 600 (the rates of
the pricing example of the spec). -/
def court1 : Court :=
  { id := 1, name := "Court 1", sportType := "football",
    weekdayPrice := 400, weekendPrice := 600, status := .active }

/-- Database fixture holding only `court1`. -/
def baseState : DBState :=
  { courts := [court1], bookings := [], slots := [], payments := [], rules := [],
    nextId := 1 }

/-- Booking input fixture: Monday 2024-01-01 (timestamp 19723 days), one
hour 06:00-07:00, 50 percent discount, advance 100 — the
end-to-end spec example (base 400 → final 200, payment PARTIAL, balance 100). -/
def input1 : BookingInput :=
  { customerName := "A", customerPhone := "9", sportType := "football",
    courtId := 1, bookingDate := 28401120, startTime := 360, endTime := 420,
    discountType := .percent, discountValue := 50, advancePaid := 100,
    paymentMode := some .cash, paymentNotes := "", createdBy := 7,
    source := .manual, recurringId := none, skipAvailabilityCheck := false,
    paymentStatus := none }

/-- Expected Booking row from running `createSingleBooking input1 baseState`. -/
def booking1 : Booking :=
  { id := 1, customerName := "A", customerPhone := "9", sportType := "football",
    courtId := 1, bookingDate := 28401120, startTime := 360, endTime := 420,
    totalSlots := 4, baseAmount := 400, discountType := .percent,
    discountValue := 50, finalAmount := 200, createdBy := 7,
    status := .booked, source := .manual, recurringId := none }


/-- Booking input fixture for the fully-paid override: same as `input1` but
with advance 0 and the explicit PAID payment-status override. -/
def input6 : BookingInput :=
  { customerName := "A", customerPhone := "9", sportType := "football",
    courtId := 1, bookingDate := 28401120, startTime := 360, endTime := 420,
    discountType := .percent, discountValue := 50, advancePaid := 0,
    paymentMode := some .cash, paymentNotes := "", createdBy := 7,
    source := .manual, recurringId := none, skipAvailabilityCheck := false,
    paymentStatus := some .paid }

/-- Booking input fixture for the payment-status override: advance equal to
the final amount (200) with an explicit PENDING payment-status
override. -/
def input8 : BookingInput :=
  { customerName := "A", customerPhone := "9", sportType := "football",
    courtId := 1, bookingDate := 28401120, startTime := 360, endTime := 420,
    discountType := .percent, discountValue := 50, advancePaid := 200,
    paymentMode := some .cash, paymentNotes := "", createdBy := 7,
    source := .manual, recurringId := none, skipAvailabilityCheck := false,
    paymentStatus := some .pending }


/-- Slot-row fixture: a BOOKED 06:15 row for court 1 on 2024-01-01 held by
booking 42, conflicting with the 06:00-07:00 range. -/
def conflictRow : SlotRow :=
  { bookingId := 42, courtId := 1, bookingDate := 28401120, slotTime := "06:15",
    status := .booked }

/-- Database fixture where `conflictRow` already occupies 06:15. -/
def stateC9 : DBState :=
  { courts := [court1], bookings := [], slots := [conflictRow], payments := [],
    rules := [], nextId := 1 }


/-- Recurring-rule fixture for the monthly-31 example: MONTHLY with fixed
day 31 on the 30-day window 2024-04-02 (day 19815) to 2024-05-01 (day
19844), where no 31st occurs. -/
def rule31 : RecurringRule :=
  { id := 31, customerName := "A", customerPhone := "9", sportType := "football",
    courtId := 1, recurrenceType := .monthly, daysOfWeek := [],
    fixedDate := some 31, startTime := 360, endTime := 420,
    startDate := 28533600, endDate := some 28575360, monthlyAmount := 0,
    paymentStatus := .pending, advancePaid := 0, discountType := .none,
    discountValue := 0, status := .active, createdBy := 7 }


/-- Weekly-rule fixture: Mondays only, window exactly Monday 2024-01-01, so
it expands to the single date 28401120. -/
def ruleW : RecurringRule :=
  { id := 5, customerName := "A", customerPhone := "9", sportType := "football",
    courtId := 1, recurrenceType := .weekly, daysOfWeek := [.mon],
    fixedDate := none, startTime := 360, endTime := 420,
    startDate := 28401120, endDate := some 28401120, monthlyAmount := 0,
    paymentStatus := .pending, advancePaid := 0, discountType := .none,
    discountValue := 0, status := .active, createdBy := 7 }

/-- Database fixture holding `court1` and `ruleW`. -/
def stateC5 : DBState :=
  { courts := [court1], bookings := [], slots := [], payments := [],
    rules := [ruleW], nextId := 1 }

/-- Booking row materialized by processing `ruleW` on its single date: note
the stored source MANUAL and the missing rule back-reference. -/
def bookingC5 : Booking :=
  { id := 1, customerName := "A", customerPhone := "9", sportType := "football",
    courtId := 1, bookingDate := 28401120, startTime := 360, endTime := 420,
    totalSlots := 4, baseAmount := 400, discountType := .none,
    discountValue := 0, finalAmount := 400, createdBy := 7,
    status := .booked, source := .manual, recurringId := none }

/-- Weekly-rule fixture for the mixed batch: Monday and Tuesday of the
window 2024-01-01 – 2024-01-02, so it expands to two dates. -/
def ruleK : RecurringRule :=
  { id := 7, customerName := "A", customerPhone := "9", sportType := "football",
    courtId := 1, recurrenceType := .weekly, daysOfWeek := [.mon, .tue],
    fixedDate := none, startTime := 360, endTime := 420,
    startDate := 28401120, endDate := some 28402560, monthlyAmount := 0,
    paymentStatus := .pending, advancePaid := 0, discountType := .none,
    discountValue := 0, status := .active, createdBy := 7 }

/-- Database fixture for the mixed batch: `ruleK` plus a pre-existing
BOOKED 06:15 row on the second date (2024-01-02), which makes exactly one
of the two expanded dates conflict. -/
def stateC4 : DBState :=
  { courts := [court1], bookings := [],
    slots := [{ bookingId := 42, courtId := 1, bookingDate := 28402560,
                slotTime := "06:15", status := .booked }],
    payments := [], rules := [ruleK], nextId := 1 }


/-! # Theorems -/

theorem digitChar_inj_ball :
    ∀ a, a < 10 → ∀ b, b < 10 → digitChar a = digitChar b → a = b := by decide

theorem digitChar_inj {a b : Nat} (ha : a < 10) (hb : b < 10)
    (h : digitChar a = digitChar b) : a = b :=
  digitChar_inj_ball a ha b hb h

theorem formatHHmm_inj {a b : Nat} (ha : a < 1440) (hb : b < 1440)
    (h : formatHHmm a = formatHHmm b) : a = b := by
  have hd := congrArg String.data h
  simp only [formatHHmm, pad2, List.cons_append, List.nil_append,
    List.cons.injEq, and_true] at hd
  obtain ⟨h1, h2, -, h3, h4⟩ := hd
  have e1 := digitChar_inj (by omega) (by omega) h1
  have e2 := digitChar_inj (by omega) (by omega) h2
  have e3 := digitChar_inj (by omega) (by omega) h3
  have e4 := digitChar_inj (by omega) (by omega) h4
  omega

theorem generateSlotsLoop_eq (endT cur : Nat) :
    generateSlotsLoop endT cur =
      (List.range ((endT + 14 - cur) / 15)).map
        (fun k => formatHHmm (cur + 15 * k)) := by
  by_cases h : cur < endT
  · rw [generateSlotsLoop]
    have hlt : 0 < (endT + 14 - cur) / 15 := Nat.div_pos (by omega) (by omega)
    have hrange : (endT + 14 - cur) / 15 = ((endT + 14 - cur) / 15 - 1) + 1 := by omega
    rw [hrange, List.range_succ_eq_map, generateSlotsLoop_eq endT (cur + 15)]
    have harith : (endT + 14 - (cur + 15)) / 15 = (endT + 14 - cur) / 15 - 1 := by
      rcases le_or_lt (cur + 15) endT with hle | hlt2
      · have : endT + 14 - cur = (endT + 14 - (cur + 15)) + 15 := by omega
        rw [this, Nat.add_div_right _ (by omega)]
        omega
      · have e1 : endT + 14 - (cur + 15) = endT - 1 - cur := by omega
        have e2 : endT - 1 - cur < 15 := by omega
        have e3 : endT + 14 - cur < 30 := by omega
        have e4 : 15 ≤ endT + 14 - cur := by omega
        rw [e1, Nat.div_eq_of_lt e2]
        omega
    rw [harith]
    simp only [List.map_cons, List.map_map, if_pos h, List.cons.injEq]
    refine ⟨by rw [Nat.mul_zero, Nat.add_zero], ?_⟩
    apply List.map_congr_left
    intro k _
    simp only [Function.comp_apply]
    exact congrArg formatHHmm (by omega)
  · rw [generateSlotsLoop]
    have : endT + 14 - cur < 15 := by omega
    rw [Nat.div_eq_of_lt this]
    simp [h]
termination_by endT - cur
decreasing_by omega

theorem generateSlots_ok {startT endT : Nat} (h : startT < endT) :
    generateSlots startT endT =
      .ok ((List.range ((endT - startT + 14) / 15)).map
        (fun k => formatHHmm (startT + 15 * k))) := by
  have : endT + 14 - startT = endT - startT + 14 := by omega
  simp [generateSlots, h, generateSlotsLoop_eq, this]

theorem generateSlots_err {startT endT : Nat} (h : endT ≤ startT) :
    generateSlots startT endT = .error .invalidRange := by
  simp [generateSlots]
  omega

theorem generateSlots_length {startT endT : Nat} (h : startT < endT) :
    ∃ l, generateSlots startT endT = .ok l ∧
      l.length = (endT - startT + 14) / 15 ∧ 0 < l.length := by
  refine ⟨_, generateSlots_ok h, by simp, ?_⟩
  simp only [List.length_map, List.length_range]
  exact Nat.div_pos (by omega) (by omega)

example : civilFromDays 0 = (1970, 1, 1) := by decide
example : civilFromDays 19723 = (2024, 1, 1) := by decide
example : jsGetDay (19723 * 1440) = 1 := by decide
example : jsAddThreeMonths (19723 * 1440) = 19814 * 1440 := by decide

/-! ## Order properties of the JS string comparison -/

theorem char_toNat_inj {a b : Char} (h : a.toNat = b.toNat) : a = b := by
  rcases a with ⟨av, ha⟩
  rcases b with ⟨bv, hb⟩
  simp only [Char.toNat] at h
  have : av = bv := UInt32.toNat.inj h
  subst this
  rfl

theorem charListLt_asymm : ∀ as bs : List Char,
    charListLt as bs = true → charListLt bs as = false
  | [], [] => by simp [charListLt]
  | [], _ :: _ => by simp [charListLt]
  | _ :: _, [] => by simp [charListLt]
  | a :: as, b :: bs => by
    intro h
    simp only [charListLt] at h ⊢
    split_ifs at h ⊢ <;>
      first
        | rfl
        | omega
        | (exact charListLt_asymm as bs h)
        | simp_all

theorem charListLt_connex : ∀ as bs : List Char,
    charListLt as bs = false → charListLt bs as = false → as = bs
  | [], [] => by simp
  | [], _ :: _ => by simp [charListLt]
  | _ :: _, [] => by simp [charListLt]
  | a :: as, b :: bs => by
    intro h1 h2
    simp only [charListLt] at h1 h2
    split_ifs at h1 h2 <;>
      first
        | (have heq : a = b := char_toNat_inj (by omega)
           rw [heq, charListLt_connex as bs h1 h2])
        | simp_all

theorem charListLt_trans : ∀ as bs cs : List Char,
    charListLt as bs = true → charListLt bs cs = true → charListLt as cs = true
  | [], [], _ => by simp [charListLt]
  | [], _ :: _, [] => by simp [charListLt]
  | [], _ :: _, _ :: _ => by simp [charListLt]
  | _ :: _, [], _ => by simp [charListLt]
  | _ :: _, _ :: _, [] => by simp [charListLt]
  | a :: as, b :: bs, c :: cs => by
    intro h1 h2
    simp only [charListLt] at h1 h2 ⊢
    split_ifs at h1 h2 ⊢ <;>
      first
        | rfl
        | omega
        | (exact charListLt_trans as bs cs h1 h2)
        | simp_all

theorem jsStrLe_total (a b : String) : jsStrLe a b || jsStrLe b a := by
  simp only [jsStrLe, Bool.or_eq_true, Bool.not_eq_eq_eq_not, Bool.not_true]
  by_cases h : charListLt b.data a.data = true
  · exact Or.inr (charListLt_asymm _ _ h)
  · exact Or.inl (by simpa using h)

theorem jsStrLe_trans (a b c : String) :
    jsStrLe a b → jsStrLe b c → jsStrLe a c := by
  simp only [jsStrLe, Bool.not_eq_eq_eq_not, Bool.not_true]
  intro h1 h2
  by_cases hab : charListLt a.data b.data = true
  · by_cases hca : charListLt c.data a.data = true
    · exact absurd (charListLt_trans _ _ _ hca hab) (by simp [h2])
    · simpa using hca
  · have heq := charListLt_connex _ _ (by simpa using hab) h1
    rw [← heq] at h2
    exact h2

/-! ## Properties of the Set-based dedup -/

theorem mem_setDedup : ∀ (l : List String) (a : String), a ∈ setDedup l ↔ a ∈ l
  | [], a => by simp [setDedup]
  | b :: l, a => by
    simp only [setDedup, List.mem_cons]
    constructor
    · rintro (rfl | h)
      · exact Or.inl rfl
      · rcases (mem_setDedup _ a).mp h with h2
        exact Or.inr (List.mem_of_mem_filter h2)
    · rintro (rfl | h)
      · exact Or.inl rfl
      · by_cases hab : a = b
        · exact Or.inl hab
        · refine Or.inr ((mem_setDedup _ a).mpr ?_)
          exact List.mem_filter.mpr ⟨h, by simpa using hab⟩
termination_by l => l.length
decreasing_by
  all_goals
    have hfl := List.length_filter_le (fun x => x != b) l
    simp only [List.length_cons]
    omega

theorem nodup_setDedup : ∀ l : List String, (setDedup l).Nodup
  | [] => by simp [setDedup]
  | b :: l => by
    simp only [setDedup, List.nodup_cons]
    refine ⟨fun hmem => ?_, nodup_setDedup _⟩
    have := List.mem_filter.mp ((mem_setDedup _ b).mp hmem)
    simpa using this.2
termination_by l => l.length
decreasing_by
  all_goals
    have hfl := List.length_filter_le (fun x => x != b) l
    simp only [List.length_cons]
    omega

/-! ## Slot generator facts used across claims -/

theorem generateSlots_error_eq {startT endT : Nat} {err : Err}
    (h : generateSlots startT endT = .error err) : err = .invalidRange := by
  unfold generateSlots at h
  split at h
  · cases h
    rfl
  · cases h

theorem generateSlots_ok_pos {startT endT : Nat} {l : List String}
    (h : generateSlots startT endT = .ok l) : 0 < l.length := by
  unfold generateSlots at h
  split at h
  · cases h
  · rename_i hc
    cases h
    rw [generateSlotsLoop_eq]
    simp only [List.length_map, List.length_range]
    exact Nat.div_pos (by omega) (by omega)

theorem generateSlots_ok_lt {startT endT : Nat} {l : List String}
    (h : generateSlots startT endT = .ok l) : startT < endT := by
  unfold generateSlots at h
  split at h
  · cases h
  · rename_i hc
    omega

theorem insertManySlots_error_eq : ∀ (ex rs : List SlotRow) {e : Err},
    insertManySlots ex rs = .error e → e = .duplicateKey
  | ex, [], e => by simp [insertManySlots]
  | ex, r :: rs, e => by
    simp only [insertManySlots]
    split
    · intro h
      cases h
      rfl
    · exact insertManySlots_error_eq _ rs

theorem checkSlotAvailability_error_eq {s courtId bookingDate startTime endTime excl e}
    (h : checkSlotAvailability s courtId bookingDate startTime endTime excl = .error e) :
    e = .invalidRange := by
  unfold checkSlotAvailability at h
  split at h
  · cases h
    exact generateSlots_error_eq (by assumption)
  · dsimp only at h
    split at h <;> cases h

theorem createSingleBooking_ok_inv {data : BookingInput} {s s1 : DBState} {b : Booking}
    (h : createSingleBooking data s = (.ok b, s1)) :
    ∃ court slots,
      s.courts.find? (fun c => c.id == data.courtId) = some court ∧
      court.status = CourtStatus.active ∧
      generateSlots data.startTime data.endTime = .ok slots ∧
      data.paymentStatus ≠ some PayStatus.paid ∧
      b.totalSlots = slots.length ∧
      b.baseAmount = calculatePrice court slots.length data.bookingDate ∧
      b.finalAmount = max 0 ⌈discountedAmount b.baseAmount data.discountType data.discountValue⌉ ∧
      ¬ ((b.finalAmount : ℚ) < data.advancePaid) ∧
      b.discountType = data.discountType ∧
      b.discountValue = data.discountValue ∧
      b.status = BookingStatus.booked ∧
      b.source = data.source ∧
      b.recurringId = data.recurringId ∧
      b.startTime = data.startTime ∧
      b.endTime = data.endTime ∧
      b.bookingDate = normalizeToMidnight data.bookingDate ∧
      s1.bookings = s.bookings ++ [b] ∧
      s1.payments = s.payments ++ [{
        bookingId := b.id
        totalAmount := b.finalAmount
        advancePaid := data.advancePaid
        balanceAmount := (b.finalAmount : ℚ) - data.advancePaid
        paymentMode := data.paymentMode.getD PayMode.cash
        paymentNotes := data.paymentNotes
        status := match data.paymentStatus with
          | some ps => ps
          | none =>
            if data.advancePaid ≤ 0 then PayStatus.pending
            else if (b.finalAmount : ℚ) ≤ data.advancePaid then PayStatus.paid
            else PayStatus.partialPay }] := by
  unfold createSingleBooking at h
  split at h
  · rw [Prod.mk.injEq] at h
    exact Except.noConfusion h.1
  · rename_i court hfind
    split at h
    · rw [Prod.mk.injEq] at h
      exact Except.noConfusion h.1
    · rename_i hact
      split at h
      · rw [Prod.mk.injEq] at h
        exact Except.noConfusion h.1
      · rename_i slots hgen
        split at h
        · rw [Prod.mk.injEq] at h
          exact Except.noConfusion h.1
        · dsimp only at h
          split at h
          · rw [Prod.mk.injEq] at h
            exact Except.noConfusion h.1
          · rename_i st1 hava
            have hpay : st1.payments = s.payments := by
              split at hava
              · cases hava
                rfl
              · split at hava
                · cases hava
                · split at hava
                  · cases hava
                  · cases hava
                    rfl
            have hbook : st1.bookings = s.bookings := by
              split at hava
              · cases hava
                rfl
              · split at hava
                · cases hava
                · split at hava
                  · cases hava
                  · cases hava
                    rfl
            split at h
            · rw [Prod.mk.injEq] at h
              exact Except.noConfusion h.1
            · rename_i hpaid
              split at h
              · rw [Prod.mk.injEq] at h
                exact Except.noConfusion h.1
              · rename_i hadv
                split at h
                · rw [Prod.mk.injEq] at h
                  exact Except.noConfusion h.1
                · rename_i rows hins
                  rw [Prod.mk.injEq] at h
                  obtain ⟨hb, hs1⟩ := h
                  have hbv := Except.ok.inj hb
                  subst hbv
                  subst hs1
                  refine ⟨court, slots, hfind, ?_, hgen, ?_, rfl, rfl, rfl, ?_, rfl, rfl, rfl, rfl, rfl, rfl, rfl, rfl, ?_, ?_⟩
                  · simp only [bne_iff_ne, ne_eq, Decidable.not_not] at hact
                    exact hact
                  · simp only [beq_iff_eq] at hpaid
                    exact hpaid
                  · exact hadv
                  · simp [hbook]
                  · simp [hpay]

/-! ## Claim C2 -/

/-- C2 counterexample: the inputs "06:00" and "06:10" form a valid pair of
"HH:mm" strings with the end strictly after the start, yet `generateSlots`
returns one label while (end − start)/15 = 10/15, so the claimed count
"exactly (end − start)/15" fails. -/
theorem C2_counterexample :
    ∃ l, generateSlots 360 370 = .ok l ∧ l = ["06:00"] ∧
      ¬ ((l.length : ℚ) = ((370 : ℚ) - 360) / 15) := by
  refine ⟨_, generateSlots_ok (by omega), ?_, ?_⟩
  · norm_num [List.range_succ]
    decide
  · norm_num [List.range_succ]

/-- C2 (amended): for every pair of "HH:mm" times with end strictly after
start, `generateSlots` returns exactly ⌈(end − start)/15⌉ labels — that is,
(end − start + 14)/15 in integer arithmetic, which equals (end − start)/15
when the range is a multiple of 15 minutes — spaced 15 minutes apart
starting at start, none equal to end; when end is not strictly after start
it fails with `invalidRange`; concretely
`generateSlots "06:00" "06:45" = ["06:00","06:15","06:30"]` and
`generateSlots "06:00" "06:00"` fails. -/
theorem C2_generateSlots_spec :
    (∀ startT endT : Nat, startT < endT → endT < 1440 →
      ∃ l, generateSlots startT endT = .ok l ∧
        l.length = (endT - startT + 14) / 15 ∧
        (15 ∣ endT - startT → l.length = (endT - startT) / 15) ∧
        l.head? = some (formatHHmm startT) ∧
        (∀ i, ∀ hi : i < l.length, l.get ⟨i, hi⟩ = formatHHmm (startT + 15 * i)) ∧
        (∀ lab ∈ l, lab ≠ formatHHmm endT)) ∧
    (∀ startT endT : Nat, endT ≤ startT →
      generateSlots startT endT = .error .invalidRange) ∧
    generateSlots 360 405 = .ok ["06:00", "06:15", "06:30"] ∧
    generateSlots 360 360 = .error .invalidRange := by
  refine ⟨?_, fun s e h => generateSlots_err h, ?_, generateSlots_err (le_refl _)⟩
  · intro startT endT hlt hub
    refine ⟨_, generateSlots_ok hlt, ?_, ?_, ?_, ?_, ?_⟩
    · simp
    · intro ⟨c, hc⟩
      simp only [List.length_map, List.length_range]
      omega
    · have h0 : 0 < (endT - startT + 14) / 15 := Nat.div_pos (by omega) (by omega)
      obtain ⟨m, hm⟩ : ∃ m, (endT - startT + 14) / 15 = m + 1 :=
        ⟨(endT - startT + 14) / 15 - 1, by omega⟩
      rw [hm, List.range_succ_eq_map]
      simp
    · intro i hi
      simp only [List.length_map, List.length_range] at hi
      simp [List.get_map, hi]
    · intro lab hmem
      simp only [List.mem_map, List.mem_range] at hmem
      obtain ⟨k, hk, rfl⟩ := hmem
      have hdiv : (endT - startT + 14) / 15 * 15 ≤ endT - startT + 14 :=
        Nat.div_mul_le_self _ _
      have hk15 : (k + 1) * 15 ≤ (endT - startT + 14) / 15 * 15 :=
        Nat.mul_le_mul_right _ hk
      have hklt : startT + 15 * k < endT := by omega
      intro heq
      have := formatHHmm_inj (by omega) (by omega) heq
      omega
  · rw [generateSlots_ok (by omega)]
    norm_num [List.range_succ]
    decide

/-- C2 witness: the general part of the amended theorem applied at the
concrete valid pair ("06:00", "06:45"). -/
theorem C2_witness :
    (360 : Nat) < 405 ∧ (405 : Nat) < 1440 ∧
      ∃ l, generateSlots 360 405 = .ok l ∧
        l.length = (405 - 360 + 14) / 15 ∧
        (15 ∣ 405 - 360 → l.length = (405 - 360) / 15) ∧
        l.head? = some (formatHHmm 360) ∧
        (∀ i, ∀ hi : i < l.length, l.get ⟨i, hi⟩ = formatHHmm (360 + 15 * i)) ∧
        (∀ lab ∈ l, lab ≠ formatHHmm 405) :=
  ⟨by omega, by omega, C2_generateSlots_spec.1 360 405 (by omega) (by omega)⟩

/-! ## Claim C10 -/

/-- C10: for every pair of parsed "HH:mm" inputs, `generateSlots` either
fails with `invalidRange` (exactly when end is not strictly after start) or
returns a list with at least one element; consequently the
`slots.length === 0` guard in `createSingleBooking` (error
"Invalid time range") is unreachable for all inputs and states. -/
theorem C10_emptySlots_unreachable :
    (∀ startT endT : Nat,
      (generateSlots startT endT = .error .invalidRange ∧ endT ≤ startT) ∨
      (∃ l, generateSlots startT endT = .ok l ∧ 0 < l.length ∧ startT < endT)) ∧
    (∀ data s, (createSingleBooking data s).1 ≠ .error .invalidTimeRange) := by
  constructor
  · intro startT endT
    rcases le_or_lt endT startT with h | h
    · exact Or.inl ⟨generateSlots_err h, h⟩
    · obtain ⟨l, hok, _, hpos⟩ := generateSlots_length h
      exact Or.inr ⟨l, hok, hpos, h⟩
  · intro data s
    unfold createSingleBooking
    split
    · simp
    · split
      · simp
      · split
        · rename_i e herr
          have he := generateSlots_error_eq herr
          subst he
          simp
        · rename_i l hok
          have hpos := generateSlots_ok_pos hok
          have hne : ¬ ((l.length == 0) = true) := by
            simp only [beq_iff_eq]
            omega
          rw [if_neg hne]
          dsimp only
          repeat' split
          all_goals intro hcon
          all_goals try (cases hcon)
          all_goals
            first
              | (rename_i heqa
                 exact Err.noConfusion (insertManySlots_error_eq _ _ heqa))
              | (rename_i heqa
                 split at heqa
                 · cases heqa
                 · split at heqa
                   · rename_i e1 hchk
                     cases heqa
                     exact Err.noConfusion (checkSlotAvailability_error_eq hchk)
                   · split at heqa <;> cases heqa)

/-! ## Shared concrete-evaluation lemmas -/

theorem court1_id : court1.id = 1 := rfl

theorem court1_status : court1.status = CourtStatus.active := rfl

theorem generateSlots_360_420 :
    generateSlots 360 420 = .ok ["06:00", "06:15", "06:30", "06:45"] := by
  rw [generateSlots_ok (by omega)]
  norm_num [List.range_succ]
  decide

theorem calculatePrice_court1_monday : calculatePrice court1 4 28401120 = 400 := by
  norm_num [calculatePrice, jsGetDay, court1]

theorem ceil_two_hundred : ⌈(200 : ℚ)⌉ = (200 : ℤ) := by
  rw [show ((200 : ℚ)) = ((200 : ℤ) : ℚ) from by norm_num, Int.ceil_intCast]

theorem createSingleBooking_input1_fst :
    (createSingleBooking input1 baseState).1 = .ok booking1 := by
  unfold createSingleBooking
  norm_num [input1, baseState, List.find?, court1_id, court1_status,
    generateSlots_360_420, checkSlotAvailability, normalizeToMidnight,
    slotConflictQuery, calculatePrice_court1_monday, discountedAmount,
    ceil_two_hundred, insertManySlots, violatesIndex, SlotRow.key,
    Prod.mk.injEq, booking1]
  repeat rw [if_neg (by decide)]

/-! ## Claim C3 -/

theorem calculatePrice_eq_spec (court : Court) (n : Nat) (date : Nat) :
    calculatePrice court n date = specBaseAmount court n date := by
  unfold calculatePrice specBaseAmount specHourlyRate
  by_cases h0 : jsGetDay date = 0 <;> by_cases h6 : jsGetDay date = 6 <;>
    simp [h0, h6]

theorem discountedAmount_eq_spec (base : ℚ) (dt : DiscountType) (v : ℚ) :
    discountedAmount base dt v = specApplyDiscount base dt v := by
  cases dt <;> simp only [discountedAmount, specApplyDiscount] <;> ring

/-- C3: every booking stored by a successful `createSingleBooking` has
final amount max(0, ceil(base after discount)), where the base is the
weekend rate on Saturday/Sunday (weekday rate otherwise) divided by 4 and
multiplied by the slot count, and the discount acts as PERCENT:
base × (1 − value/100), FLAT: base − value, NONE: unchanged; concretely a
50 percent PERCENT discount on a 400 base yields final amount 200. -/
theorem C3_pricing_follows_spec :
    (∀ (data : BookingInput) (s s1 : DBState) (b : Booking),
      createSingleBooking data s = (.ok b, s1) →
      ∃ court, s.courts.find? (fun c => c.id == data.courtId) = some court ∧
        b.baseAmount = specBaseAmount court b.totalSlots data.bookingDate ∧
        b.finalAmount = specFinalAmount b.baseAmount data.discountType data.discountValue) ∧
    specFinalAmount 400 DiscountType.percent 50 = 200 := by
  constructor
  · intro data s s1 b h
    obtain ⟨court, slots, hfind, hact, hgen, hpaid, htot, hbase, hfin, hadv, -⟩ :=
      createSingleBooking_ok_inv h
    refine ⟨court, hfind, ?_, ?_⟩
    · rw [hbase, htot, calculatePrice_eq_spec]
    · rw [hfin, specFinalAmount, discountedAmount_eq_spec]
  · have h1 : specApplyDiscount 400 DiscountType.percent 50 = (200 : ℚ) := by
      norm_num [specApplyDiscount]
    rw [specFinalAmount, h1, ceil_two_hundred]
    decide

/-- C3 witness: the pricing theorem applied to the concrete run of
`createSingleBooking` on `input1` (Monday, rate 400, one hour, 50 percent
discount), whose final amount evaluates to 200. -/
theorem C3_witness :
    ∃ b s1, createSingleBooking input1 baseState = (.ok b, s1) ∧
      ∃ court, baseState.courts.find? (fun c => c.id == input1.courtId) = some court ∧
        b.baseAmount = specBaseAmount court b.totalSlots input1.bookingDate ∧
        b.finalAmount = specFinalAmount b.baseAmount input1.discountType input1.discountValue := by
  have hrun : createSingleBooking input1 baseState =
      (.ok booking1, (createSingleBooking input1 baseState).2) := by
    rw [← createSingleBooking_input1_fst]
  exact ⟨booking1, (createSingleBooking input1 baseState).2, hrun,
    C3_pricing_follows_spec.1 input1 baseState _ booking1 hrun⟩

/-! ## Claim C6 -/

/-- C6: evaluating `createSingleBooking` at an input carrying the explicit
fully-paid override (payment status PAID, advance 0, otherwise a
bookable request) does not succeed with the advance forced to the final
amount, as the claim states: the JS code assigns to the const-destructured
`advancePaid` binding and throws a TypeError ("Assignment to constant
variable."), embedded as `constAssignment`. -/
theorem C6_paid_override_throws :
    input6.paymentStatus = some PayStatus.paid ∧
    (createSingleBooking input6 baseState).1 = .error .constAssignment ∧
    (∀ b : Booking, ∀ s1 : DBState,
      createSingleBooking input6 baseState ≠ (.ok b, s1)) := by
  have hfst : (createSingleBooking input6 baseState).1 = .error .constAssignment := by
    unfold createSingleBooking
    norm_num [input6, baseState, List.find?, court1_id, court1_status,
      generateSlots_360_420, checkSlotAvailability, normalizeToMidnight,
      slotConflictQuery, calculatePrice_court1_monday, discountedAmount,
      ceil_two_hundred]
  refine ⟨rfl, hfst, fun b s1 hcon => ?_⟩
  rw [hcon] at hfst
  exact Except.noConfusion hfst

/-! ## Claim C8 -/

/-- C8 counterexample: with an explicit PENDING payment-status override
and advance 200 equal to the final amount 200, the call succeeds and the
stored Payment has status PENDING, while the derivation the claim states
(advance ≥ final ⇒ PAID) yields PAID — so the Payment status is not always
derived from advance vs final amount. -/
theorem C8_counterexample :
    ∃ b p, (createSingleBooking input8 baseState).1 = .ok b ∧
      (createSingleBooking input8 baseState).2.payments = [p] ∧
      p.status = PayStatus.pending ∧
      b.finalAmount = 200 ∧ input8.advancePaid = 200 ∧
      specDerivedPayStatus input8.advancePaid b.finalAmount = PayStatus.paid ∧
      p.status ≠ specDerivedPayStatus input8.advancePaid b.finalAmount := by
  have hfst : (createSingleBooking input8 baseState).1 = .ok booking1 := by
    unfold createSingleBooking
    norm_num [input8, baseState, List.find?, court1_id, court1_status,
      generateSlots_360_420, checkSlotAvailability, normalizeToMidnight,
      slotConflictQuery, calculatePrice_court1_monday, discountedAmount,
      ceil_two_hundred, insertManySlots, violatesIndex, SlotRow.key,
      Prod.mk.injEq, booking1]
    repeat rw [if_neg (by decide)]
  have hrun : createSingleBooking input8 baseState =
      (.ok booking1, (createSingleBooking input8 baseState).2) := by
    rw [← hfst]
  obtain ⟨court, slots, -, -, -, -, -, -, -, -, -, -, -, -, -, -, -, -, -, hpays⟩ :=
    createSingleBooking_ok_inv hrun
  refine ⟨booking1,
    { bookingId := booking1.id, totalAmount := booking1.finalAmount,
      advancePaid := input8.advancePaid,
      balanceAmount := (booking1.finalAmount : ℚ) - input8.advancePaid,
      paymentMode := input8.paymentMode.getD PayMode.cash,
      paymentNotes := input8.paymentNotes, status := PayStatus.pending },
    hfst, ?_, rfl, rfl, rfl, ?_, ?_⟩
  · rw [hpays]
    rfl
  · norm_num [specDerivedPayStatus, booking1, input8]
  · norm_num [specDerivedPayStatus, booking1, input8]
    decide

/-- C8 (amended): when no explicit paymentStatus override is supplied, the
Payment row created by a successful `createSingleBooking` has status
derived from advance vs final amount (PENDING if advance ≤ 0, PAID if
advance ≥ final, else PARTIAL), total equal to the final amount, and
balance equal to final amount minus advance, which is never negative (so
it equals the 0-floored difference); when an override other than PAID is
supplied, the override is stored as-is. -/
theorem C8_payment_status :
    ∀ (data : BookingInput) (s s1 : DBState) (b : Booking),
      createSingleBooking data s = (.ok b, s1) →
      ∃ p, s1.payments = s.payments ++ [p] ∧
        (data.paymentStatus = none →
          p.status = specDerivedPayStatus data.advancePaid b.finalAmount) ∧
        (∀ ps, data.paymentStatus = some ps → p.status = ps) ∧
        p.totalAmount = b.finalAmount ∧
        p.advancePaid = data.advancePaid ∧
        p.balanceAmount = (b.finalAmount : ℚ) - data.advancePaid ∧
        p.balanceAmount = max 0 ((b.finalAmount : ℚ) - data.advancePaid) := by
  intro data s s1 b h
  obtain ⟨court, slots, hfind, hact, hgen, hpaid, htot, hbase, hfin, hadv,
    hdt, hdv, hst, hsrc, hrid, hstt, hett, hbd, hbooks, hpays⟩ :=
    createSingleBooking_ok_inv h
  refine ⟨_, hpays, ?_, ?_, rfl, rfl, rfl, ?_⟩
  · intro hps
    simp only [hps, specDerivedPayStatus]
  · intro ps hps
    simp only [hps]
  · exact (max_eq_right (sub_nonneg.mpr (not_lt.mp hadv))).symm

/-- C8 witness: the amended payment theorem applied to the concrete run on
`input1` (no override, advance 100 against final 200 — PARTIAL, balance
100). -/
theorem C8_witness :
    ∃ p, (createSingleBooking input1 baseState).2.payments =
        baseState.payments ++ [p] ∧
      (input1.paymentStatus = none →
        p.status = specDerivedPayStatus input1.advancePaid booking1.finalAmount) ∧
      (∀ ps, input1.paymentStatus = some ps → p.status = ps) ∧
      p.totalAmount = booking1.finalAmount ∧
      p.advancePaid = input1.advancePaid ∧
      p.balanceAmount = (booking1.finalAmount : ℚ) - input1.advancePaid ∧
      p.balanceAmount = max 0 ((booking1.finalAmount : ℚ) - input1.advancePaid) := by
  have hrun : createSingleBooking input1 baseState =
      (.ok booking1, (createSingleBooking input1 baseState).2) := by
    rw [← createSingleBooking_input1_fst]
  exact C8_payment_status input1 baseState _ booking1 hrun

/-! ## Claim C9 -/

theorem slotConflictQuery_iff (courtId nd : Nat) (slots : List String)
    (excl : Option Nat) (row : SlotRow) :
    slotConflictQuery courtId nd slots excl row = true ↔
      (row.status = SlotStatus.booked ∧ row.courtId = courtId ∧
        row.bookingDate = nd ∧ row.slotTime ∈ slots ∧
        (∀ bid, excl = some bid → row.bookingId ≠ bid)) := by
  cases excl <;>
    simp [slotConflictQuery, List.contains_iff_exists_mem_beq, and_comm,
      and_assoc] <;>
    tauto

theorem jsSortStrings_sorted (l : List String) :
    (jsSortStrings l).Pairwise (fun a b => jsStrLe a b = true) :=
  List.sorted_mergeSort (fun a b c => jsStrLe_trans a b c)
    (fun a b => jsStrLe_total a b) l

theorem mem_jsSortStrings {a : String} {l : List String} :
    a ∈ jsSortStrings l ↔ a ∈ l := List.mem_mergeSort

theorem nodup_jsSortStrings {l : List String} (h : l.Nodup) :
    (jsSortStrings l).Nodup :=
  ((List.mergeSort_perm l jsStrLe).nodup_iff).mpr h

/-- C9: `checkSlotAvailability` reports available with no conflicts exactly
when no BOOKED BookingSlot row matches the court, the normalized date and a
generated slot label (rows of the excluded booking id disregarded);
otherwise it reports the sorted duplicate-free list of exactly the
conflicting labels; and for a fixed database state repeated calls return
identical results. -/
theorem C9_checkSlotAvailability_spec :
    ∀ (s : DBState) (courtId date startTime endTime : Nat) (excl : Option Nat)
      (slots : List String) (r : AvailResult),
      generateSlots startTime endTime = .ok slots →
      checkSlotAvailability s courtId date startTime endTime excl = .ok r →
      (((r.available = true ∧ r.conflicts = []) ↔
        ∀ row ∈ s.slots, ¬(row.status = SlotStatus.booked ∧
          row.courtId = courtId ∧ row.bookingDate = normalizeToMidnight date ∧
          row.slotTime ∈ slots ∧
          (∀ bid, excl = some bid → row.bookingId ≠ bid))) ∧
      (r.available = false →
        (r.conflicts.Pairwise (fun a b => jsStrLe a b = true) ∧
         r.conflicts.Nodup ∧
         ∀ lab, (lab ∈ r.conflicts ↔ ∃ row ∈ s.slots,
           row.status = SlotStatus.booked ∧ row.courtId = courtId ∧
           row.bookingDate = normalizeToMidnight date ∧ row.slotTime = lab ∧
           lab ∈ slots ∧ (∀ bid, excl = some bid → row.bookingId ≠ bid)))) ∧
      checkSlotAvailability s courtId date startTime endTime excl =
        checkSlotAvailability s courtId date startTime endTime excl) := by
  intro s courtId date startTime endTime excl slots r hgen hres
  unfold checkSlotAvailability at hres
  rw [hgen] at hres
  dsimp only at hres
  split at hres
  · -- conflicts nonempty: r = ⟨false, sorted dedup labels⟩
    rename_i hlen
    cases hres
    refine ⟨?_, ?_, rfl⟩
    · simp only [show (false = true ∧
          jsSortStrings (setDedup (List.map SlotRow.slotTime
            (List.filter (slotConflictQuery courtId (normalizeToMidnight date)
              slots excl) s.slots))) = []) ↔ False from by simp, false_iff]
      intro hall
      have hnil : List.filter (slotConflictQuery courtId
          (normalizeToMidnight date) slots excl) s.slots = [] := by
        rw [List.filter_eq_nil_iff]
        intro a ha
        rw [Bool.not_eq_true, ← Bool.not_eq_true]
        intro hq
        exact hall a ha ((slotConflictQuery_iff _ _ _ _ _).mp hq)
      rw [hnil] at hlen
      simp at hlen
    · refine fun _ => ⟨jsSortStrings_sorted _, nodup_jsSortStrings (nodup_setDedup _), ?_⟩
      intro lab
      rw [mem_jsSortStrings, mem_setDedup, List.mem_map]
      constructor
      · rintro ⟨row, hrow, rfl⟩
        obtain ⟨hq1, hq2, hq3, hq4, hq5⟩ :=
          (slotConflictQuery_iff _ _ _ _ _).mp (List.of_mem_filter hrow)
        exact ⟨row, List.mem_of_mem_filter hrow, hq1, hq2, hq3, rfl, hq4, hq5⟩
      · rintro ⟨row, hrowmem, hq1, hq2, hq3, rfl, hq4, hq5⟩
        refine ⟨row, List.mem_filter.mpr ⟨hrowmem, ?_⟩, rfl⟩
        exact (slotConflictQuery_iff _ _ _ _ _).mpr ⟨hq1, hq2, hq3, hq4, hq5⟩
  · -- no conflicts: r = ⟨true, []⟩
    rename_i hlen
    cases hres
    refine ⟨?_, by simp, rfl⟩
    simp only [true_and, true_iff]
    intro row hrow hprop
    have hq := (slotConflictQuery_iff courtId (normalizeToMidnight date)
      slots excl row).mpr hprop
    have : row ∈ List.filter (slotConflictQuery courtId
        (normalizeToMidnight date) slots excl) s.slots :=
      List.mem_filter.mpr ⟨hrow, hq⟩
    rcases hfe : List.filter (slotConflictQuery courtId
        (normalizeToMidnight date) slots excl) s.slots with _ | ⟨a, l⟩
    · rw [hfe] at this
      cases this
    · rw [hfe] at hlen
      simp at hlen

/-- C9 witness: the availability theorem applied to the concrete state
where booking 42 holds the BOOKED 06:15 row: checking 06:00-07:00 reports
unavailable with the single conflicting label "06:15". -/
theorem C9_witness :
    checkSlotAvailability stateC9 1 28401120 360 420 none =
      .ok ⟨false, ["06:15"]⟩ ∧
    ((( (false = true ∧ (["06:15"] : List String) = []) ↔
        ∀ row ∈ stateC9.slots, ¬(row.status = SlotStatus.booked ∧
          row.courtId = 1 ∧ row.bookingDate = normalizeToMidnight 28401120 ∧
          row.slotTime ∈ ["06:00", "06:15", "06:30", "06:45"] ∧
          (∀ bid, (none : Option Nat) = some bid → row.bookingId ≠ bid))) ∧
      (false = false →
        ((["06:15"] : List String).Pairwise (fun a b => jsStrLe a b = true) ∧
         (["06:15"] : List String).Nodup ∧
         ∀ lab, (lab ∈ (["06:15"] : List String) ↔ ∃ row ∈ stateC9.slots,
           row.status = SlotStatus.booked ∧ row.courtId = 1 ∧
           row.bookingDate = normalizeToMidnight 28401120 ∧ row.slotTime = lab ∧
           lab ∈ ["06:00", "06:15", "06:30", "06:45"] ∧
           (∀ bid, (none : Option Nat) = some bid → row.bookingId ≠ bid)))) ∧
      checkSlotAvailability stateC9 1 28401120 360 420 none =
        checkSlotAvailability stateC9 1 28401120 360 420 none)) := by
  have hres : checkSlotAvailability stateC9 1 28401120 360 420 none =
      .ok ⟨false, ["06:15"]⟩ := by
    unfold checkSlotAvailability
    rw [generateSlots_360_420]
    norm_num [stateC9, conflictRow, slotConflictQuery, normalizeToMidnight,
      setDedup, jsSortStrings, List.mergeSort]
  exact ⟨hres, C9_checkSlotAvailability_spec stateC9 1 28401120 360 420 none
    ["06:00", "06:15", "06:30", "06:45"] ⟨false, ["06:15"]⟩
    generateSlots_360_420 hres⟩

/-! ## Claim C7 -/

theorem normalizeToMidnight_mod (t : Nat) : normalizeToMidnight t % 1440 = 0 := by
  unfold normalizeToMidnight
  omega

theorem normalizeToMidnight_idem (t : Nat) :
    normalizeToMidnight (normalizeToMidnight t) = normalizeToMidnight t := by
  unfold normalizeToMidnight
  omega

theorem genDatesLoop_eq (rule : RecurringRule) (endD : Nat) :
    ∀ cur : Nat, cur % 1440 = 0 →
    genDatesLoop rule endD cur =
      ((List.range ((endD + 1440 - cur) / 1440)).map
        (fun k => cur + 1440 * k)).filter (rulePred rule) := by
  intro cur hc
  by_cases h : cur ≤ endD
  · rw [genDatesLoop, if_pos h]
    have hn : (endD + 1440 - cur) / 1440 = (endD - cur) / 1440 + 1 := by omega
    rw [hn, List.range_succ_eq_map, genDatesLoop_eq rule endD (cur + 1440) (by omega)]
    have hn2 : (endD + 1440 - (cur + 1440)) / 1440 = (endD - cur) / 1440 := by omega
    rw [hn2]
    have hnorm : normalizeToMidnight cur = cur := by
      unfold normalizeToMidnight
      omega
    simp only [List.map_cons, List.map_map, List.filter_cons, hnorm, Nat.mul_zero,
      Nat.add_zero]
    have hmap : List.map ((fun k => cur + 1440 * k) ∘ Nat.succ)
        (List.range ((endD - cur) / 1440)) =
        List.map (fun k => cur + 1440 + 1440 * k)
          (List.range ((endD - cur) / 1440)) := by
      apply List.map_congr_left
      intro k _
      simp only [Function.comp_apply]
      omega
    rw [hmap]
    rcases hp : rulePred rule cur <;> simp [hp]
  · rw [genDatesLoop, if_neg h]
    have : (endD + 1440 - cur) / 1440 = 0 := by omega
    rw [this]
    rfl
termination_by cur => endD + 1 - cur
decreasing_by omega

theorem generateDates_closed_form (rule : RecurringRule) :
    generateDates rule =
      ((List.range ((ruleEndBound rule + 1440 -
          normalizeToMidnight rule.startDate) / 1440)).map
        (fun k => normalizeToMidnight rule.startDate + 1440 * k)).filter
        (rulePred rule) := by
  unfold generateDates ruleEndBound
  rcases hend : rule.endDate with _ | e <;>
    simp only [hend] <;>
    rw [genDatesLoop_eq _ _ _ (normalizeToMidnight_mod _), normalizeToMidnight_idem]

/-- C7: `generateDates` walks every calendar day from the normalized rule
start date to its end bound inclusive — the normalized end date, defaulting
to start plus three months (JS `setMonth(getMonth()+3)` semantics) when
absent — including a day for a WEEKLY rule iff its weekday is in the mapped
day set and for a MONTHLY rule iff its day-of-month equals the fixed rule
day; the result is an ascending finite list of midnight timestamps,
possibly empty, as in the concrete MONTHLY fixed-day-31 rule on a 30-day
window containing no 31st. -/
theorem C7_generateDates_spec :
    (∀ rule : RecurringRule,
      (∀ t, t ∈ generateDates rule ↔
        (normalizeToMidnight rule.startDate ≤ t ∧ t ≤ ruleEndBound rule ∧
          (t - normalizeToMidnight rule.startDate) % 1440 = 0 ∧
          t % 1440 = 0 ∧ rulePred rule t = true)) ∧
      (generateDates rule).Sorted (· < ·) ∧
      (rule.endDate = none → ruleEndBound rule =
        normalizeToMidnight (jsAddThreeMonths (normalizeToMidnight rule.startDate))) ∧
      (∀ e, rule.endDate = some e → ruleEndBound rule = normalizeToMidnight e) ∧
      (rule.recurrenceType = RecurrenceType.weekly →
        ∀ t, rulePred rule t =
          (rule.daysOfWeek.map DAYS_MAP).contains (jsGetDay t)) ∧
      (rule.recurrenceType = RecurrenceType.monthly →
        ∀ t f, rule.fixedDate = some f →
          (rulePred rule t = true ↔ jsGetDate t = f))) ∧
    generateDates rule31 = [] := by
  constructor
  · intro rule
    have hs : (normalizeToMidnight rule.startDate) % 1440 = 0 :=
      normalizeToMidnight_mod _
    refine ⟨?_, ?_, ?_, ?_, ?_, ?_⟩
    · intro t
      rw [generateDates_closed_form, List.mem_filter, List.mem_map]
      constructor
      · rintro ⟨⟨k, hkmem, rfl⟩, hp⟩
        rw [List.mem_range] at hkmem
        exact ⟨by omega, by omega, by omega, by omega, hp⟩
      · rintro ⟨h1, h2, h3, h4, hp⟩
        refine ⟨⟨(t - normalizeToMidnight rule.startDate) / 1440, ?_, by omega⟩, hp⟩
        rw [List.mem_range]
        omega
    · rw [generateDates_closed_form]
      apply List.Pairwise.filter
      rw [List.pairwise_map]
      exact (List.pairwise_lt_range _).imp (fun h => by omega)
    · intro h
      unfold ruleEndBound
      rw [h]
    · intro e h
      unfold ruleEndBound
      rw [h, normalizeToMidnight_idem]
    · intro h t
      simp [rulePred, h]
    · intro h t f hf
      simp [rulePred, h, hf]
  · rw [generateDates_closed_form]
    decide

/-- C7 witness: the characterization applied to the concrete MONTHLY rule
`rule31`, discharging the monthly and explicit-end-date hypotheses. -/
theorem C7_witness :
    (rule31.recurrenceType = RecurrenceType.monthly ∧
      rule31.fixedDate = some 31 ∧
      (rulePred rule31 28533600 = true ↔ jsGetDate 28533600 = 31)) ∧
    (rule31.endDate = some 28575360 ∧
      ruleEndBound rule31 = normalizeToMidnight 28575360) :=
  ⟨⟨rfl, rfl, (C7_generateDates_spec.1 rule31).2.2.2.2.2 rfl 28533600 31 rfl⟩,
   ⟨rfl, (C7_generateDates_spec.1 rule31).2.2.2.1 28575360 rfl⟩⟩

/-! ## Claim C5 -/

theorem ceil_four_hundred : ⌈(400 : ℚ)⌉ = (400 : ℤ) := by
  rw [show ((400 : ℚ)) = ((400 : ℤ) : ℚ) from by norm_num, Int.ceil_intCast]

theorem generateDates_ruleW : generateDates ruleW = [28401120] := by
  rw [generateDates_closed_form]
  decide

theorem createSingleBooking_ruleW_fst :
    (createSingleBooking (recurringInput ruleW 28401120) stateC5).1 =
      .ok bookingC5 := by
  unfold createSingleBooking recurringInput
  norm_num [ruleW, stateC5, List.find?, court1_id, court1_status,
    generateSlots_360_420, checkSlotAvailability, normalizeToMidnight,
    slotConflictQuery, calculatePrice_court1_monday, discountedAmount,
    ceil_four_hundred, insertManySlots, violatesIndex, SlotRow.key,
    Prod.mk.injEq, bookingC5]
  repeat rw [if_neg (by decide)]

/-- C5: processing the active weekly rule `ruleW` (id 5) succeeds on its
single expanded date, yet the booking it materializes is stored with
source MANUAL and a null rule back-reference — because the JS call site
passes `bookingSource`/`recurringRuleId` keys that `createSingleBooking`
never destructures — contradicting the claim that every materialized
booking carries source RECURRING and the originating rule id. -/
theorem C5_recurring_booking_mislinked :
    ∃ res s1, processRecurringBooking 5 stateC5 = (.ok res, s1) ∧
      res.success = 1 ∧ res.failed = 0 ∧
      s1.bookings.map (fun b => (b.source, b.recurringId)) =
        [(BookingSource.manual, (none : Option Nat))] ∧
      ∀ b ∈ s1.bookings, ¬(b.source = BookingSource.recurring ∧
        b.recurringId = some ruleW.id) := by
  have hrun : createSingleBooking (recurringInput ruleW 28401120) stateC5 =
      (.ok bookingC5, (createSingleBooking (recurringInput ruleW 28401120) stateC5).2) := by
    rw [← createSingleBooking_ruleW_fst]
  have hfindrule : stateC5.rules.find? (fun r => r.id == 5) = some ruleW := by
    norm_num [stateC5, List.find?, ruleW]
  have hproc : processRecurringBooking 5 stateC5 =
      (.ok ⟨1, 0, []⟩,
        (createSingleBooking (recurringInput ruleW 28401120) stateC5).2) := by
    unfold processRecurringBooking
    rw [hfindrule]
    dsimp only
    rw [show (ruleW.status != RuleStatus.active) = false from rfl]
    simp only [Bool.false_eq_true, if_false]
    rw [generateDates_ruleW]
    unfold processDatesLoop
    rw [hrun]
    rfl
  obtain ⟨court, slots, -, -, -, -, -, -, -, -, -, -, -, -, -, -, -, -, hbooks, -⟩ :=
    createSingleBooking_ok_inv hrun
  refine ⟨⟨1, 0, []⟩, _, hproc, rfl, rfl, ?_, ?_⟩
  · rw [hbooks]
    rfl
  · intro b hb
    rw [hbooks] at hb
    simp only [stateC5, List.nil_append, List.mem_singleton] at hb
    subst hb
    rintro ⟨hsrc, -⟩
    exact BookingSource.noConfusion hsrc

/-! ## Claim C4 -/

theorem processDatesLoop_spec (rule : RecurringRule) :
    ∀ (dates : List Nat) (acc : RecResult) (st : DBState),
      (processDatesLoop rule dates acc st).1.success +
          (processDatesLoop rule dates acc st).1.failed =
        acc.success + acc.failed + dates.length ∧
      (processDatesLoop rule dates acc st).1.failed =
        acc.failed + (specRunFailures rule dates st).length ∧
      (processDatesLoop rule dates acc st).1.conflicts =
        acc.conflicts ++ specRunFailures rule dates st
  | [], acc, st => by
    simp [processDatesLoop, specRunFailures]
  | d :: ds, acc, st => by
    rcases hc : createSingleBooking (recurringInput rule d) st with ⟨r, st1⟩
    rcases r with e | b
    · have ih := processDatesLoop_spec rule ds
        { acc with failed := acc.failed + 1,
                   conflicts := acc.conflicts ++ [(isoDate d, e.message)] } st1
      simp only [processDatesLoop, specRunFailures, hc, List.length_cons] at ih ⊢
      refine ⟨by omega, by omega, ?_⟩
      rw [ih.2.2]
      simp
    · have ih := processDatesLoop_spec rule ds
        { acc with success := acc.success + 1 } st1
      simp only [processDatesLoop, specRunFailures, hc, List.length_cons] at ih ⊢
      exact ⟨by omega, by omega, ih.2.2⟩

/-- C4: for every active rule, the recurring processor returns successfully
with success = N − K, failed = K and a conflict list of exactly the K
(date, reason) entries of the dates whose `createSingleBooking` call fails
during the sequential run over the N expanded dates — no per-date failure
aborts the batch. -/
theorem C4_partial_batch :
    ∀ (ruleId : Nat) (s : DBState) (rule : RecurringRule),
      s.rules.find? (fun r => r.id == ruleId) = some rule →
      rule.status = RuleStatus.active →
      ∃ res s1, processRecurringBooking ruleId s = (.ok res, s1) ∧
        res.failed = (specRunFailures rule (generateDates rule) s).length ∧
        res.success = (generateDates rule).length - res.failed ∧
        res.success + res.failed = (generateDates rule).length ∧
        res.conflicts = specRunFailures rule (generateDates rule) s ∧
        res.conflicts.length = res.failed := by
  intro ruleId s rule hfind hact
  unfold processRecurringBooking
  rw [hfind]
  dsimp only
  rw [show (rule.status != RuleStatus.active) = false from by
    rw [hact]
    rfl]
  simp only [Bool.false_eq_true, if_false]
  obtain ⟨h1, h2, h3⟩ := processDatesLoop_spec rule (generateDates rule) ⟨0, 0, []⟩ s
  refine ⟨_, _, rfl, ?_, ?_, ?_, ?_, ?_⟩
  · simpa using h2
  · simp only at h1 h2
    omega
  · simpa using h1
  · simpa using h3
  · rw [h3]
    simp only [List.nil_append]
    simp only at h2
    omega

/-- C4 witness: the partial-batch theorem applied to the concrete state
`stateC4`, whose rule `ruleK` expands to two dates of which exactly the
second conflicts with a pre-existing BOOKED row. -/
theorem C4_witness :
    stateC4.rules.find? (fun r => r.id == 7) = some ruleK ∧
    ruleK.status = RuleStatus.active ∧
    ∃ res s1, processRecurringBooking 7 stateC4 = (.ok res, s1) ∧
      res.failed = (specRunFailures ruleK (generateDates ruleK) stateC4).length ∧
      res.success = (generateDates ruleK).length - res.failed ∧
      res.success + res.failed = (generateDates ruleK).length ∧
      res.conflicts = specRunFailures ruleK (generateDates ruleK) stateC4 ∧
      res.conflicts.length = res.failed := by
  have hfind : stateC4.rules.find? (fun r => r.id == 7) = some ruleK := by
    norm_num [stateC4, List.find?, ruleK]
  exact ⟨hfind, rfl, C4_partial_batch 7 stateC4 ruleK hfind rfl⟩

/-! ## Claim C1 -/

theorem violatesIndex_false {acc : List SlotRow} {r : SlotRow}
    (hv : violatesIndex acc r = false) :
    r.status = SlotStatus.booked → ∀ e ∈ acc,
      e.status = SlotStatus.booked → e.key ≠ r.key := by
  intro hr e he hb hk
  have : violatesIndex acc r = true := by
    simp only [violatesIndex, Bool.and_eq_true, beq_iff_eq, List.any_eq_true]
    exact ⟨hr, e, he, hb, hk⟩
  rw [this] at hv
  cases hv

theorem insertManySlots_preserves :
    ∀ (rs acc out : List SlotRow),
      AtMostOneBooked acc → insertManySlots acc rs = .ok out →
      AtMostOneBooked out
  | [], acc, out => by
    intro hinv h
    cases h
    exact hinv
  | r :: rs, acc, out => by
    intro hinv h
    rw [insertManySlots] at h
    split at h
    · cases h
    · rename_i hv
      refine insertManySlots_preserves rs (acc ++ [r]) out ?_ h
      rw [AtMostOneBooked, List.pairwise_append]
      refine ⟨hinv, by simp [AtMostOneBooked], ?_⟩
      intro a ha b hb
      simp only [List.mem_singleton] at hb
      subst hb
      intro hab hbb
      exact violatesIndex_false (by simpa using hv) hbb a ha hab

theorem hasBookedDup_false :
    ∀ rows : List SlotRow, hasBookedDup rows = false → AtMostOneBooked rows
  | [] => fun _ => List.Pairwise.nil
  | r :: rows => by
    intro h
    rw [hasBookedDup, Bool.or_eq_false_iff] at h
    refine List.Pairwise.cons ?_ (hasBookedDup_false rows h.2)
    intro b hb hrb hbb hk
    have hcon : (r.status == SlotStatus.booked &&
        rows.any (fun e => e.status == SlotStatus.booked && e.key == r.key)) = true := by
      simp only [Bool.and_eq_true, beq_iff_eq, List.any_eq_true]
      exact ⟨hrb, b, hb, hbb, hk.symm⟩
    rw [hcon] at h
    exact Bool.noConfusion h.1

theorem AtMostOneBooked_map_demote (rows : List SlotRow) (f : SlotRow → SlotRow)
    (hkey : ∀ r, (f r).key = r.key)
    (hst : ∀ r, (f r).status = SlotStatus.booked → r.status = SlotStatus.booked)
    (h : AtMostOneBooked rows) : AtMostOneBooked (rows.map f) := by
  rw [AtMostOneBooked, List.pairwise_map]
  refine h.imp ?_
  intro a b hab ha hb
  rw [hkey, hkey]
  exact hab (hst a ha) (hst b hb)

theorem AtMostOneBooked_filter (rows : List SlotRow) (p : SlotRow → Bool)
    (h : AtMostOneBooked rows) : AtMostOneBooked (rows.filter p) :=
  h.sublist (List.filter_sublist rows)

theorem createSingleBooking_preserves {data : BookingInput} {s : DBState}
    {r : Except Err Booking} {s1 : DBState}
    (h : createSingleBooking data s = (r, s1))
    (hinv : AtMostOneBooked s.slots) : AtMostOneBooked s1.slots := by
  unfold createSingleBooking at h
  split at h
  · cases h
    exact hinv
  · split at h
    · cases h
      exact hinv
    · split at h
      · cases h
        exact hinv
      · split at h
        · cases h
          exact hinv
        · dsimp only at h
          split at h
          · cases h
            exact hinv
          · rename_i st1 hava
            have hst1 : AtMostOneBooked st1.slots := by
              split at hava
              · cases hava
                exact hinv
              · split at hava
                · cases hava
                · split at hava
                  · cases hava
                  · cases hava
                    exact AtMostOneBooked_filter _ _ hinv
            split at h
            · cases h
              exact hst1
            · split at h
              · cases h
                exact hst1
              · split at h
                · cases h
                  exact hst1
                · rename_i rows hins
                  cases h
                  exact insertManySlots_preserves _ _ _ hst1 hins

/-- C1: each operation that writes BookingSlot rows — booking creation,
booking status update (including re-booking), booking deletion and the
expiry sweep — preserves the invariant that at most one row per
(court, date, slotTime) triple is BOOKED, while CANCELLED/COMPLETED rows
for one triple may coexist (the invariant holds of a state with three such
rows on the same triple). -/
theorem C1_booked_uniqueness_preserved :
    (∀ (data : BookingInput) (s : DBState), AtMostOneBooked s.slots →
      AtMostOneBooked (opCreateBooking data s).slots) ∧
    (∀ (bookingId : Nat) (newStatus : BookingStatus) (s : DBState),
      AtMostOneBooked s.slots →
      AtMostOneBooked (opUpdateBookingStatus bookingId newStatus s).slots) ∧
    (∀ (bookingId : Nat) (s : DBState), AtMostOneBooked s.slots →
      AtMostOneBooked (opDeleteBooking bookingId s).slots) ∧
    (∀ (now : Nat) (s : DBState), AtMostOneBooked s.slots →
      AtMostOneBooked (opCronSweep now s).slots) ∧
    AtMostOneBooked
      [{ bookingId := 1, courtId := 1, bookingDate := 0, slotTime := "06:00",
         status := SlotStatus.cancelled },
       { bookingId := 2, courtId := 1, bookingDate := 0, slotTime := "06:00",
         status := SlotStatus.completed },
       { bookingId := 3, courtId := 1, bookingDate := 0, slotTime := "06:00",
         status := SlotStatus.cancelled }] := by
  refine ⟨?_, ?_, ?_, ?_, ?_⟩
  · intro data s hinv
    unfold opCreateBooking
    rcases h : createSingleBooking data s with ⟨r, s1⟩
    rcases r with e | b
    · exact hinv
    · exact createSingleBooking_preserves h hinv
  · intro bookingId newStatus s hinv
    unfold opUpdateBookingStatus
    split
    · exact hinv
    · rename_i booking hfind
      match newStatus with
      | .cancelled =>
        exact AtMostOneBooked_map_demote _ _
          (fun r => by dsimp only [SlotRow.key]; split <;> rfl)
          (fun r hr => by
            revert hr
            split
            · intro hcon
              cases hcon
            · exact id)
          hinv
      | .completed =>
        exact AtMostOneBooked_map_demote _ _
          (fun r => by dsimp only [SlotRow.key]; split <;> rfl)
          (fun r hr => by
            revert hr
            split
            · intro hcon
              cases hcon
            · exact id)
          hinv
      | .booked =>
        dsimp only
        split
        · split
          · exact hinv
          · split
            · exact hinv
            · split
              · exact hinv
              · rename_i hdup
                exact hasBookedDup_false _ (by simpa using hdup)
        · exact hinv
  · intro bookingId s hinv
    unfold opDeleteBooking
    split
    · exact hinv
    · exact AtMostOneBooked_filter _ _ hinv
  · intro now s hinv
    unfold opCronSweep
    dsimp only
    split
    · exact AtMostOneBooked_map_demote _ _
        (fun r => by dsimp only [SlotRow.key]; split <;> rfl)
        (fun r hr => by
          revert hr
          split
          · intro hcon
            cases hcon
          · exact id)
        hinv
    · exact hinv
  · simp [AtMostOneBooked, List.pairwise_cons]

/-- C1 witness: the preservation theorem applied at the fixture state
`baseState` (whose slot list trivially satisfies the invariant) for each of
the four operations. -/
theorem C1_witness :
    AtMostOneBooked baseState.slots ∧
    AtMostOneBooked (opCreateBooking input1 baseState).slots ∧
    AtMostOneBooked (opUpdateBookingStatus 1 BookingStatus.cancelled baseState).slots ∧
    AtMostOneBooked (opDeleteBooking 1 baseState).slots ∧
    AtMostOneBooked (opCronSweep 28401120 baseState).slots := by
  have h0 : AtMostOneBooked baseState.slots := by
    rw [show baseState.slots = [] from rfl]
    exact List.Pairwise.nil
  exact ⟨h0, C1_booked_uniqueness_preserved.1 input1 baseState h0,
    C1_booked_uniqueness_preserved.2.1 1 BookingStatus.cancelled baseState h0,
    C1_booked_uniqueness_preserved.2.2.1 1 baseState h0,
    C1_booked_uniqueness_preserved.2.2.2.1 28401120 baseState h0⟩

end Turf
